import Mathlib

/-!
Verification of the ResilienceAI routing/supervisor core and the Next.js API
routes of the Hackathon---End-Of-The-World repository.

The original supervisor core lives in `langgraph_supervisor.py` / `main.py`,
which are not shipped in this snapshot; the architecture guide
(src/unnamed/part_000) documents their behaviour and carries the abridged
source of `ask()` (its response-extraction loop).  The TypeScript API routes
(src/app/api/chat/route.ts and the analyze-country route in
src/unnamed/part_008) are embedded directly from their source.
-/

/-! ## Generic character-list machinery (substring, lowering, trimming) -/

/-- `subList needle hay` decides whether `needle` occurs contiguously inside
`hay` (the `in` operator of Python / `String.includes` of JS, on char lists). -/
def subList (needle : List Char) : List Char → Bool
  | [] => needle.isEmpty
  | c :: rest => needle.isPrefixOf (c :: rest) || subList needle rest

/-- Substring containment on strings: `containsSub hay needle`. -/
def containsSub (hay needle : String) : Bool :=
  subList needle.toList hay.toList

/-- Lower-case a character list (Python `str.lower` / JS `toLowerCase`,
restricted to the ASCII letters that appear in the routing tables). -/
def lowerChars (l : List Char) : List Char :=
  l.map Char.toLower

/-- Strip leading and trailing whitespace (Python `str.strip`, JS `trim`). -/
def trimChars (l : List Char) : List Char :=
  ((l.dropWhile Char.isWhitespace).reverse.dropWhile Char.isWhitespace).reverse

/-- Python's `s.strip().lower()` as used by the response extractor. -/
def lowerTrim (s : String) : List Char :=
  lowerChars (trimChars s.toList)

/-! ## Conversation messages -/

/-- A normalized conversation message, `{role, content}` (spec §3). -/
structure Message where
  role : String
  content : String
deriving DecidableEq, Repr

/-! ## Response extractor (`ask()` in part_000 lines 130–142)

The loop `for msg in reversed(messages): if _is_assistant(msg): content =
_message_content(msg); if content and content.strip().lower() !=
question.strip().lower(): return content` followed by the fixed fallback
string.  Messages are already normalized to `{role, content}`, so
`_message_content` is the `content` projection and `_is_assistant` the role
test. -/

/-- `_is_assistant` on a normalized message. -/
def is_assistant (m : Message) : Bool :=
  m.role == "assistant"

/-- `_message_content` on a normalized message. -/
def message_content (m : Message) : String :=
  m.content

/-- The fixed no-response fallback string returned by `ask()`. -/
def no_response_fallback : String :=
  "No response from agents. Try rephrasing or check that the supervisor routes to an agent."

/-- One pass of the extraction loop over an (already reversed) message list.
Returns the selected answer together with the list it traversed, making the
read-only nature of the scan a provable property. -/
def extract_scan (question : String) : List Message → String × List Message
  | [] => (no_response_fallback, [])
  | m :: rest =>
    if is_assistant m && (message_content m != "")
        && (lowerTrim (message_content m) != lowerTrim question) then
      (message_content m, m :: rest)
    else
      let r := extract_scan question rest
      (r.1, m :: r.2)

/-- The response extractor: scan `messages` from the end, return the first
assistant message whose content is non-empty and does not echo the question
(modulo strip/lower); otherwise the fallback string. -/
def extract_response (messages : List Message) (question : String) : String :=
  (extract_scan question messages.reverse).1

/-- The selection condition of the extraction loop, as a predicate (used to
characterize `extract_response`). -/
def qualifies (question : String) (m : Message) : Bool :=
  is_assistant m && (message_content m != "")
    && (lowerTrim (message_content m) != lowerTrim question)

lemma extract_scan_fst_eq_find (question : String) (l : List Message) :
    (extract_scan question l).1 =
      match l.find? (qualifies question) with
      | some m => message_content m
      | none => no_response_fallback := by
  induction l with
  | nil => rfl
  | cons m rest ih =>
    by_cases h : qualifies question m = true
    · simp [extract_scan, qualifies] at h ⊢
      rw [List.find?_cons_of_pos _ (by simp [qualifies, h])]
      simp [h]
    · have h' : (is_assistant m && (message_content m != "")
          && (lowerTrim (message_content m) != lowerTrim question)) = false := by
        simpa [qualifies] using h
      rw [List.find?_cons_of_neg _ (by simp [qualifies, h'])]
      simp [extract_scan, h', ih]

lemma extract_scan_snd (question : String) (l : List Message) :
    (extract_scan question l).2 = l := by
  induction l with
  | nil => rfl
  | cons m rest ih =>
    by_cases h : (is_assistant m && (message_content m != "")
        && (lowerTrim (message_content m) != lowerTrim question)) = true
    · simp [extract_scan, h]
    · simp only [Bool.not_eq_true] at h
      simp [extract_scan, h, ih]

/-! ## Router (`langgraph_supervisor.py`, not shipped in this snapshot)

Modelled from the spec: `langgraph_supervisor.py` (the supervisor node's
`parse_route` and its keyword fallback) is missing from src/; the definitions
below follow spec §4.1 and the architecture guide src/unnamed/part_000 §5.
The valid destination set is taken from part_000 §6 and the `AGENT_CONFIG`
table in src/unnamed/part_010. -/

/-- The fixed enumerated set of AgentIds (part_000 §6 / part_010
`AGENT_CONFIG`, supervisor excluded), in configuration order. -/
def agentIds : List String :=
  ["news_stats_agent", "weather_disaster_agent", "economy_agent", "food_agent",
   "political_agent", "disease_agent", "health_agent", "economic_news_agent"]

/-- Stable insertion of a name in front of the first strictly shorter one. -/
def insertByLen (a : String) : List String → List String
  | [] => [a]
  | b :: bs => if b.length ≤ a.length then a :: b :: bs else b :: insertByLen a bs

/-- Stable sort by length, longest first. -/
def sortByLenDesc : List String → List String
  | [] => []
  | a :: as => insertByLen a (sortByLenDesc as)

/-- Modelled from the spec: the order in which the Router tries destination
names — longest to shortest (spec §4.1 step 3; part_000 §5 "longer names
checked first"). -/
def routeOrder : List String :=
  sortByLenDesc agentIds

/-- Result of parsing the raw LLM routing reply: a destination name was
found, the literal FINISH token was found, or nothing was found. -/
inductive RouteParse where
  | agent (a : String)
  | finish
  | nothing
deriving DecidableEq, Repr

/-- Modelled from the spec: parse the raw reply by searching, longest
destination name first, for a substring match against the valid destination
set; only a reply matching no destination name is checked for the literal
FINISH token (spec §4.1 step 3). -/
def parse_route (reply : String) : RouteParse :=
  match routeOrder.find? (fun a => containsSub reply a) with
  | some a => .agent a
  | none => if containsSub reply "FINISH" then .finish else .nothing

/-- Modelled from the spec: the ordered keyword rule table, earlier rules
win (spec §4.1 step 4; examples from part_000 §5: "food production", "crop",
"agriculture" → food_agent; "economic news", "real-time" →
economic_news_agent; "gdp", "trade" → economy_agent). -/
def keywordRules : List (String × String) :=
  [("food production", "food_agent"), ("crop", "food_agent"),
   ("agriculture", "food_agent"),
   ("economic news", "economic_news_agent"), ("real-time", "economic_news_agent"),
   ("gdp", "economy_agent"), ("trade", "economy_agent")]

/-- Case-insensitive substring containment of a keyword in a message
(spec §4.1 step 4). -/
def kwMatch (msg keyword : String) : Bool :=
  subList (lowerChars keyword.toList) (lowerChars msg.toList)

/-- Modelled from the spec: the deterministic keyword fallback — try the
ordered rules against the most recent user message, first match wins,
otherwise accept FINISH (spec §4.1 step 4). -/
def keyword_fallback (lastUserMsg : String) : String :=
  match keywordRules.find? (fun r => kwMatch lastUserMsg r.1) with
  | some r => r.2
  | none => "FINISH"

/-- Modelled from the spec: the Router's full decision — the parsed reply
when it names an agent, otherwise the keyword fallback on the most recent
user message (spec §4.1 steps 3–5). -/
def route_next (reply lastUserMsg : String) : String :=
  match parse_route reply with
  | .agent a => a
  | _ => keyword_fallback lastUserMsg

/-! ## Supervisor Loop (spec §4.2, §6, §7)

Modelled from the spec: `main.py`'s graph execution is missing from src/;
the loop below follows spec §4.2 (state machine with ROUTING /
AGENT_RUNNING / DONE, round-trip ceiling) and §7 (AgentExecutionError is
absorbed as an error-content assistant message; LoopCeilingExceeded forces
DONE as a degraded completion). -/

/-- Content of the most recent user message of the log (`""` if none). -/
def lastUserContent (log : List Message) : String :=
  match log.reverse.find? (fun m => m.role == "user") with
  | some m => m.content
  | none => ""

/-- Modelled from the spec: the hard maximum number of Router→Agent round
trips per invocation ("a fixed ceiling, e.g. in the tens", spec §4.2). -/
def RoundTripCeiling : Nat := 25

/-- Outcome of one supervisor invocation: the final log, the number of
Router→Agent round trips performed, and whether completion was degraded
(ceiling reached). -/
structure LoopOut where
  messages : List Message
  trips : Nat
  degraded : Bool
deriving DecidableEq, Repr

/-- An Agent Worker: consumes the destination and the conversation, appends
one assistant message or fails internally (spec §6, §7). -/
def Worker : Type :=
  String → List Message → Except String Message

/-- Absorb a worker failure as an error-content assistant message
(spec §7, AgentExecutionError policy). -/
def workerMessage (w : Worker) (dest : String) (log : List Message) : Message :=
  match w dest log with
  | .ok m => m
  | .error e => ⟨"assistant", e⟩

/-- Modelled from the spec: the Supervisor Loop.  Each round trip asks the
Router (LLM reply parsed by `route_next`), stops on FINISH, otherwise runs
the selected worker and appends its message; exhausting the fuel (the
ceiling) forces DONE with the degraded flag set (spec §4.2). -/
def runLoop (llm : List Message → String) (w : Worker) :
    Nat → List Message → LoopOut
  | 0, log => ⟨log, 0, true⟩
  | Nat.succ n, log =>
    let nxt := route_next (llm log) (lastUserContent log)
    if nxt = "FINISH" then ⟨log, 0, false⟩
    else
      let out := runLoop llm w n (log ++ [workerMessage w nxt log])
      ⟨out.messages, out.trips + 1, out.degraded⟩

/-- Modelled from the spec: `ask(question)` — seed the conversation with the
user's question, run the Supervisor Loop to DONE, return the Response
Extractor's result (part_000 §7, spec §6). -/
def ask_question (llm : List Message → String) (w : Worker) (question : String) : String :=
  extract_response (runLoop llm w RoundTripCeiling [⟨"user", question⟩]).messages question

/-! ## Helper lemmas about the Router -/

lemma routeOrder_eq :
    routeOrder = ["weather_disaster_agent", "economic_news_agent",
      "news_stats_agent", "political_agent", "economy_agent", "disease_agent",
      "health_agent", "food_agent"] := by decide

lemma mem_routeOrder_iff {a : String} : a ∈ routeOrder ↔ a ∈ agentIds := by
  rw [routeOrder_eq]
  simp [agentIds, List.mem_cons]
  tauto

/-- In a list sorted by length (longest first), `find?` returns an element at
least as long as any element satisfying the predicate. -/
lemma find?_sorted_length_le {p : String → Bool} {l : List String} {c a : String}
    (hs : l.Pairwise (fun x y => y.length ≤ x.length))
    (hc : l.find? p = some c) (ha : a ∈ l) (hpa : p a = true) :
    a.length ≤ c.length := by
  induction l with
  | nil => cases hc
  | cons x xs ih =>
    rcases List.pairwise_cons.mp hs with ⟨hx, hxs⟩
    by_cases hpx : p x = true
    · rw [List.find?_cons_of_pos _ hpx] at hc
      cases hc
      rcases List.mem_cons.mp ha with rfl | hmem
      · exact le_refl _
      · exact hx a hmem
    · rw [List.find?_cons_of_neg _ (by simpa using hpx)] at hc
      rcases List.mem_cons.mp ha with rfl | hmem
      · exact absurd hpa hpx
      · exact ih hxs hc hmem

lemma parse_route_agent_mem {reply a : String}
    (h : parse_route reply = .agent a) :
    a ∈ agentIds ∧ containsSub reply a = true := by
  unfold parse_route at h
  rcases hf : routeOrder.find? (fun x => containsSub reply x) with _ | c
  · rw [hf] at h
    by_cases hfin : containsSub reply "FINISH" = true <;> simp [hfin] at h
  · rw [hf] at h
    cases h
    exact ⟨mem_routeOrder_iff.mp (List.mem_of_find?_eq_some hf),
      by simpa using List.find?_some hf⟩

lemma parse_route_dominance {reply a c : String}
    (ha : a ∈ agentIds) (hsa : containsSub reply a = true)
    (h : parse_route reply = .agent c) :
    a.length ≤ c.length := by
  unfold parse_route at h
  rcases hf : routeOrder.find? (fun x => containsSub reply x) with _ | c'
  · rw [hf] at h
    by_cases hfin : containsSub reply "FINISH" = true <;> simp [hfin] at h
  · rw [hf] at h
    cases h
    exact find?_sorted_length_le (by rw [routeOrder_eq]; decide) hf
      (mem_routeOrder_iff.mpr ha) (by simpa using hsa)

lemma parse_route_some_of_mem {reply a : String}
    (ha : a ∈ agentIds) (hsa : containsSub reply a = true) :
    ∃ c, parse_route reply = .agent c := by
  unfold parse_route
  rcases hf : routeOrder.find? (fun x => containsSub reply x) with _ | c
  · exfalso
    have := List.find?_eq_none.mp hf a (mem_routeOrder_iff.mpr ha)
    simp [hsa] at this
  · exact ⟨c, rfl⟩

lemma route_next_of_agent {reply lu a : String}
    (h : parse_route reply = .agent a) : route_next reply lu = a := by
  unfold route_next
  rw [h]

lemma route_next_of_fallback {reply lu : String}
    (h : parse_route reply = .finish ∨ parse_route reply = .nothing) :
    route_next reply lu = keyword_fallback lu := by
  unfold route_next
  rcases h with h | h <;> rw [h]

lemma keyword_fallback_mem (lu : String) :
    keyword_fallback lu ∈ agentIds ∨ keyword_fallback lu = "FINISH" := by
  unfold keyword_fallback
  rcases hf : keywordRules.find? (fun r => kwMatch lu r.1) with _ | r
  · rw [hf]
    exact Or.inr rfl
  · rw [hf]
    left
    have hmem := List.mem_of_find?_eq_some hf
    have hall : ∀ r ∈ keywordRules, r.2 ∈ agentIds := by decide
    exact hall r hmem

lemma keyword_fallback_eq_finish {lu : String} (h : keyword_fallback lu = "FINISH") :
    ∀ r ∈ keywordRules, kwMatch lu r.1 = false := by
  intro r hr
  unfold keyword_fallback at h
  rcases hf : keywordRules.find? (fun r => kwMatch lu r.1) with _ | s
  · have := List.find?_eq_none.mp hf r hr
    simpa using this
  · rw [hf] at h
    have h2 : s.2 = "FINISH" := h
    have hall : ∀ t ∈ keywordRules, t.2 ∈ agentIds := by decide
    have hmem : ("FINISH" : String) ∈ agentIds :=
      h2 ▸ hall s (List.mem_of_find?_eq_some hf)
    exact absurd hmem (by decide)

lemma route_next_mem (reply lu : String) :
    route_next reply lu ∈ agentIds ∨ route_next reply lu = "FINISH" := by
  unfold route_next
  rcases hp : parse_route reply with a | _ | _
  · exact Or.inl (parse_route_agent_mem hp).1
  · exact keyword_fallback_mem lu
  · exact keyword_fallback_mem lu

/-! ## Helper lemmas about the Supervisor Loop -/

lemma runLoop_trips_le (llm : List Message → String) (w : Worker) :
    ∀ (fuel : Nat) (log : List Message), (runLoop llm w fuel log).trips ≤ fuel := by
  intro fuel
  induction fuel with
  | zero => intro log; simp [runLoop]
  | succ n ih =>
    intro log
    unfold runLoop
    by_cases h : route_next (llm log) (lastUserContent log) = "FINISH"
    · simp [h]
    · simp only [h, if_false]
      exact Nat.succ_le_succ (ih _)

/-- A Router stub whose LLM path always names `food_agent` and never FINISH
(spec §8's property-test stub). -/
def stubRouter : List Message → String := fun _ => "food_agent"

lemma route_next_stub (lu : String) : route_next "food_agent" lu = "food_agent" := by
  have h : parse_route "food_agent" = .agent "food_agent" := by decide
  exact route_next_of_agent h

lemma runLoop_stub_trips (w : Worker) :
    ∀ (fuel : Nat) (log : List Message),
      (runLoop stubRouter w fuel log).trips = fuel ∧
      (runLoop stubRouter w fuel log).degraded = true := by
  intro fuel
  induction fuel with
  | zero => intro log; simp [runLoop]
  | succ n ih =>
    intro log
    unfold runLoop
    have h : route_next (stubRouter log) (lastUserContent log) = "food_agent" :=
      route_next_stub _
    rw [show stubRouter log = "food_agent" from rfl] at h ⊢
    simp only [h]
    have hne : ("food_agent" : String) ≠ "FINISH" := by decide
    simp only [hne, if_false]
    exact ⟨by simp [(ih _).1], (ih _).2⟩

/-- Replacing a worker by its totalized form (failures turned into
error-content assistant messages) leaves the loop unchanged: failures are
absorbed, not propagated. -/
lemma runLoop_totalize (llm : List Message → String) (w : Worker) :
    ∀ (fuel : Nat) (log : List Message),
      runLoop llm w fuel log =
        runLoop llm (fun dest l => .ok (workerMessage w dest l)) fuel log := by
  intro fuel
  induction fuel with
  | zero => intro log; rfl
  | succ n ih =>
    intro log
    unfold runLoop
    by_cases h : route_next (llm log) (lastUserContent log) = "FINISH"
    · simp [h]
    · simp only [h, if_false]
      rw [show workerMessage (fun dest l => .ok (workerMessage w dest l)) = workerMessage w from by
        funext dest l
        simp [workerMessage]]
      rw [ih]

/-! ## POST /api/chat (src/app/api/chat/route.ts)

The route proxies the user message to the Python agent server, then runs a
second "formatter" pass through the same server; outgoing fetches and their
outcomes are modelled explicitly. -/

/-- An outgoing fetch to the agent server: the JSON body
`{message, thread_id}` built by the route. -/
structure OutRequest where
  message : String
  thread_id : String
deriving DecidableEq, Repr

/-- Outcome of one fetch: the call threw (network error or unparsable JSON
body), or it returned with `response.ok`, a `response` field, and an
optional `trace` field. -/
inductive FetchOutcome where
  | thrown
  | reply (ok : Bool) (response : String) (trace : Option (List String))
deriving DecidableEq, Repr

/-- The HTTP result of the chat route: the 200 JSON body
`{content, trace, sources}`, or the 500 error body. -/
inductive ChatResult where
  | ok200 (content : String) (trace : List String) (sources : List String)
  | err500
deriving DecidableEq, Repr

/-- The formatter prompt template (route.ts lines 38–46). -/
def chatFormatPrompt (originalContent : String) : String :=
  "\n        Format the following text into clean, readable Markdown.\n        Use headers (##), bullet points, and bold text to improve readability.\n        Ensure there is proper spacing between sections.\n        Do NOT change the content or meaning, just the format.\n        \n        Text to format:\n        "
    ++ originalContent ++ "\n        "

/-- The chat route handler (route.ts POST), as a function of the parsed
request body (none if `req.json()` threw), the agent fetch outcome, and the
formatter fetch outcome.  Returns the outgoing requests it issued and the
HTTP result. -/
def chatPOST : Option String → FetchOutcome → FetchOutcome → List OutRequest × ChatResult
  | none, _, _ => ([], .err500)
  | some message, .thrown, _ => ([⟨message, "default-session"⟩], .err500)
  | some message, .reply false _ _, _ => ([⟨message, "default-session"⟩], .err500)
  | some message, .reply true resp tr, fmt =>
    let req1 : OutRequest := ⟨message, "default-session"⟩
    let originalTrace := tr.getD []
    let trace1 := originalTrace ++ ["Formatter activated..."]
    let req2 : OutRequest := ⟨chatFormatPrompt resp, "formatter-session"⟩
    match fmt with
    | .thrown =>
      ([req1, req2], .ok200 resp trace1 ["ResilienceAI Agent Network"])
    | .reply true fresp _ =>
      ([req1, req2], .ok200 fresp (trace1 ++ ["Process completed"]) ["ResilienceAI Agent Network"])
    | .reply false _ _ =>
      ([req1, req2],
        .ok200 resp (trace1 ++ ["Formatter failed", "Process completed"]) ["ResilienceAI Agent Network"])

/-! ## POST /api/analyze-country (src/unnamed/part_008)

The route truncates the incoming country list to 10, queries the agent
server, strips markdown fences from the reply and parses it as JSON, falling
back to the brace-delimited substring; every failure path answers 200 with
an empty `descriptions` object.  `JSON.parse` is a platform primitive and is
modelled as an oracle `jp`. -/

/-- One element of the incoming `countries` array (the fields the route
interpolates; the score is kept as its string rendering). -/
structure CountryRisk where
  country_name : String
  iso3 : String
  composite_score : String
deriving DecidableEq, Repr

/-- The `countries` field of the request body as the route's guards see it. -/
inductive CountriesField where
  | badJson
  | missing
  | notArray
  | arr (cs : List CountryRisk)

/-- Replace every (non-overlapping, left-to-right) occurrence of `pat` by
`rep`, fuel-bounded by the input length (JS `String.replace` with a global
regexp). -/
def replaceAllF (pat rep : List Char) : Nat → List Char → List Char
  | _, [] => []
  | 0, l => l
  | Nat.succ n, c :: rest =>
    if pat.isPrefixOf (c :: rest) && !pat.isEmpty then
      rep ++ replaceAllF pat rep n (rest.drop (pat.length - 1))
    else
      c :: replaceAllF pat rep n rest

/-- `l.replace(pat, rep)` over char lists. -/
def replaceAll (pat rep l : List Char) : List Char :=
  replaceAllF pat rep l.length l

/-- `content.replace(/```json/g, "").replace(/```/g, "").trim()`
(part_008 line 49). -/
def cleanContent (s : String) : String :=
  String.mk (trimChars (replaceAll "```".toList [] (replaceAll "```json".toList [] s.toList)))

/-- The opening brace character. -/
def lbrace : Char := Char.ofNat 123

/-- The closing brace character. -/
def rbrace : Char := Char.ofNat 125

/-- `content.match(/\x7b[\s\S]*\x7d/)` — the greedy match runs from the
first opening brace to the last closing brace, provided the latter comes
strictly after the former (part_008 line 57). -/
def extractBraces (s : String) : Option String :=
  let cs := s.toList
  match cs.findIdx? (· == lbrace), cs.reverse.findIdx? (· == rbrace) with
  | some i, some jr =>
    let j := cs.length - 1 - jr
    if i < j then some (String.mk ((cs.drop i).take (j - i + 1))) else none
  | _, _ => none

/-- `countries.slice(0, 10).map(c => ...).join(", ")` (part_008 lines 12–14). -/
def targetCountries (cs : List CountryRisk) : String :=
  String.intercalate ", "
    ((cs.take 10).map (fun c =>
      c.country_name ++ " (" ++ c.iso3 ++ "): Risk Score " ++ c.composite_score))

/-- The enrichment prompt template (part_008 lines 16–27). -/
def analyzePrompt (cs : List CountryRisk) : String :=
  "\n        You are a risk analyst.\n        Generate a concise, 1-sentence risk summary (max 10 words) for each of the following countries based on their high risk score.\n        Focus on specific potential threats (e.g. \"Currency devaluation and unrest\", \"Supply chain blockade\").\n        \n        Countries:\n        "
    ++ targetCountries cs
    ++ "\n        \n        Return ONLY a raw JSON object where keys are the ISO3 codes and values are the summaries. \n        Do not use Markdown formatting. Do not include \"json\" code blocks.\n        Example format: \x7b \"USA\": \"Inflation and political polarization risks.\", \"CHN\": \"Trade restrictions and slowing growth.\" \x7d\n        "

/-- Result of the analyze-country route: outgoing requests, HTTP status, and
the `descriptions` value of the 200 body (`none` is the literal empty
object). -/
structure AnalyzeOut (D : Type) where
  requests : List OutRequest
  status : Nat
  descriptions : Option D

/-- The analyze-country route handler (part_008 POST), parameterized by the
`JSON.parse` oracle `jp`. -/
def analyzePOST {D : Type} (jp : String → Option D) :
    CountriesField → FetchOutcome → AnalyzeOut D
  | .badJson, _ => ⟨[], 200, none⟩
  | .missing, _ => ⟨[], 200, none⟩
  | .notArray, _ => ⟨[], 200, none⟩
  | .arr cs, agent =>
    if cs.isEmpty then ⟨[], 200, none⟩
    else
      let req : OutRequest := ⟨analyzePrompt cs, "enrichment-session"⟩
      match agent with
      | .thrown => ⟨[req], 200, none⟩
      | .reply false _ _ => ⟨[req], 200, none⟩
      | .reply true resp _ =>
        let content := cleanContent resp
        match jp content with
        | some d => ⟨[req], 200, some d⟩
        | none =>
          match extractBraces content with
          | none => ⟨[req], 200, none⟩
          | some sub =>
            match jp sub with
            | some d => ⟨[req], 200, some d⟩
            | none => ⟨[req], 200, none⟩

/-! ## Claim theorems -/

/-- C1: The Router's keyword fallback runs exactly when the parsed reply
resolves to FINISH or to no valid destination; it matches only the most
recent user message against the ordered keyword rule table using
case-insensitive substring containment, the first matching rule's AgentId
overrides the model's FINISH/null verdict, and the Router returns FINISH
only when no keyword rule matches. -/
theorem router_keyword_fallback_policy :
    (∀ reply lu a, parse_route reply = .agent a → route_next reply lu = a)
    ∧ (∀ reply lu, (parse_route reply = .finish ∨ parse_route reply = .nothing) →
        route_next reply lu = keyword_fallback lu)
    ∧ (∀ lu k a, keywordRules.find? (fun r => kwMatch lu r.1) = some (k, a) →
        keyword_fallback lu = a ∧ kwMatch lu k = true ∧ (k, a) ∈ keywordRules)
    ∧ (∀ reply lu, route_next reply lu = "FINISH" →
        ∀ r ∈ keywordRules, kwMatch lu r.1 = false)
    ∧ route_next "FINISH" "Tell me about food production in India" = "food_agent" := by
  refine ⟨fun reply lu a h => route_next_of_agent h,
    fun reply lu h => route_next_of_fallback h, ?_, ?_, by decide⟩
  · intro lu k a hf
    refine ⟨by unfold keyword_fallback; rw [hf], ?_, List.mem_of_find?_eq_some hf⟩
    simpa using List.find?_some hf
  · intro reply lu hfin
    have hne : "FINISH" ∉ agentIds := by decide
    rcases hp : parse_route reply with a | _ | _
    · rw [route_next_of_agent hp] at hfin
      exact absurd ((parse_route_agent_mem hp).1) (by rw [hfin]; exact hne)
    · rw [route_next_of_fallback (Or.inl hp)] at hfin
      exact keyword_fallback_eq_finish hfin
    · rw [route_next_of_fallback (Or.inr hp)] at hfin
      exact keyword_fallback_eq_finish hfin

/-- C1 witness: the parsed agent verdict is accepted unchanged, and a gdp
question hits the economy rule of the fallback table. -/
theorem router_keyword_fallback_policy_witness :
    route_next "please ask food_agent" "hello" = "food_agent"
    ∧ keyword_fallback "what about gdp?" = "economy_agent" :=
  ⟨router_keyword_fallback_policy.1 "please ask food_agent" "hello" "food_agent" (by decide),
   (router_keyword_fallback_policy.2.2.1 "what about gdp?" "gdp" "economy_agent" (by decide)).1⟩

/-- C2: destination parsing tries names longest-to-shortest: any parsed
agent is a valid destination occurring in the reply; whenever two valid
names of different lengths occur in the reply, the shorter is never the
result; a reply containing economic_news_agent (and not the single longer
id) resolves to economic_news_agent; FINISH is considered only after every
destination name has failed to match. -/
theorem router_longest_match :
    (∀ reply a, parse_route reply = .agent a →
        a ∈ agentIds ∧ containsSub reply a = true)
    ∧ (∀ reply a b c, a ∈ agentIds → b ∈ agentIds →
        containsSub reply a = true → containsSub reply b = true →
        b.length < a.length → parse_route reply = .agent c →
        b.length < c.length ∧ c ≠ b)
    ∧ (∀ reply, containsSub reply "economic_news_agent" = true →
        containsSub reply "weather_disaster_agent" = false →
        parse_route reply = .agent "economic_news_agent")
    ∧ (∀ reply, parse_route reply = .finish →
        (∀ a ∈ agentIds, containsSub reply a = false)
          ∧ containsSub reply "FINISH" = true) := by
  refine ⟨fun reply a h => parse_route_agent_mem h, ?_, ?_, ?_⟩
  · intro reply a b c ha _hb hsa _hsb hlen hc
    have hac := parse_route_dominance ha hsa hc
    have hbc : b.length < c.length := lt_of_lt_of_le hlen hac
    exact ⟨hbc, fun h => by rw [h] at hbc; exact lt_irrefl _ hbc⟩
  · intro reply hsa hwx
    obtain ⟨c, hc⟩ := parse_route_some_of_mem (a := "economic_news_agent") (by decide) hsa
    have hlen : ("economic_news_agent" : String).length ≤ c.length :=
      parse_route_dominance (by decide) hsa hc
    obtain ⟨hmem, hsub⟩ := parse_route_agent_mem hc
    have hclass : ∀ x ∈ agentIds, ("economic_news_agent" : String).length ≤ x.length →
        x = "weather_disaster_agent" ∨ x = "economic_news_agent" := by decide
    rcases hclass c hmem hlen with rfl | rfl
    · rw [hsub] at hwx; cases hwx
    · exact hc
  · intro reply h
    unfold parse_route at h
    rcases hf : routeOrder.find? (fun a => containsSub reply a) with _ | c
    · rw [hf] at h
      constructor
      · intro a ha
        have := List.find?_eq_none.mp hf a (mem_routeOrder_iff.mpr ha)
        simpa using this
      · by_cases hfin : containsSub reply "FINISH" = true
        · exact hfin
        · simp [hfin] at h
    · rw [hf] at h
      cases h

/-- C2 witness: a reply containing both the long id and the word news
resolves to economic_news_agent. -/
theorem router_longest_match_witness :
    parse_route "economic_news_agent or news" = .agent "economic_news_agent" :=
  router_longest_match.2.2.1 "economic_news_agent or news" (by decide) (by decide)

/-- C5: the Router's output read by the Supervisor Loop is always exactly
one value: a known AgentId or the literal FINISH — never null, never an
unknown identifier, and never both at once. -/
theorem router_output_resolved :
    (∀ reply lu, route_next reply lu ∈ agentIds ∨ route_next reply lu = "FINISH")
    ∧ "FINISH" ∉ agentIds
    ∧ (∀ reply lu, ¬(route_next reply lu ∈ agentIds ∧ route_next reply lu = "FINISH")) := by
  refine ⟨route_next_mem, by decide, ?_⟩
  rintro reply lu ⟨hmem, heq⟩
  rw [heq] at hmem
  exact absurd hmem (by decide)

/-- C5 witness: a concrete routing decision lands in the resolved set. -/
theorem router_output_resolved_witness :
    route_next "go to economy_agent" "x" ∈ agentIds
      ∨ route_next "go to economy_agent" "x" = "FINISH" :=
  router_output_resolved.1 "go to economy_agent" "x"

/-- C3: for every Router and Agent Worker behaviour, the Supervisor Loop
performs at most the fixed round-trip ceiling; `ask` always returns exactly
the Response Extractor's result over the final log (a string, never a
crash); and under a Router stub that never returns FINISH from the LLM path
the loop exhausts the ceiling and completes degraded while still returning
the extractor's result. -/
theorem supervisor_loop_ceiling :
    (∀ (llm : List Message → String) (w : Worker) (fuel : Nat) (log : List Message),
        (runLoop llm w fuel log).trips ≤ fuel)
    ∧ (∀ (llm : List Message → String) (w : Worker) (q : String),
        ask_question llm w q =
          extract_response (runLoop llm w RoundTripCeiling [⟨"user", q⟩]).messages q)
    ∧ (∀ (w : Worker) (q : String),
        (runLoop stubRouter w RoundTripCeiling [⟨"user", q⟩]).trips = RoundTripCeiling
        ∧ (runLoop stubRouter w RoundTripCeiling [⟨"user", q⟩]).degraded = true
        ∧ ask_question stubRouter w q =
            extract_response (runLoop stubRouter w RoundTripCeiling [⟨"user", q⟩]).messages q) :=
  ⟨fun llm w fuel log => runLoop_trips_le llm w fuel log,
   fun _ _ _ => rfl,
   fun w q => ⟨(runLoop_stub_trips w RoundTripCeiling [⟨"user", q⟩]).1,
     (runLoop_stub_trips w RoundTripCeiling [⟨"user", q⟩]).2, rfl⟩⟩

/-- The routing replies of end-to-end scenario 3: route to food_agent on the
seed message, then FINISH. -/
def scenarioLLM : List Message → String :=
  fun log => if log.length == 1 then "food_agent" else "FINISH"

/-- An Agent Worker that always fails internally. -/
def failingWorker : Worker :=
  fun _ _ => .error "AgentExecutionError: data tool failed"

/-- C6: a worker failure never crashes the invocation: the loop behaves
exactly as if the worker had appended an error-content assistant message,
and in the concrete failing scenario it still reaches DONE (not degraded)
with the extractor returning the error content as the answer. -/
theorem agent_error_resilience :
    (∀ (llm : List Message → String) (w : Worker) (fuel : Nat) (log : List Message),
        runLoop llm w fuel log =
          runLoop llm (fun dest l => .ok (workerMessage w dest l)) fuel log)
    ∧ ((runLoop scenarioLLM failingWorker RoundTripCeiling
          [⟨"user", "What is the answer?"⟩]).messages
        = [⟨"user", "What is the answer?"⟩,
           ⟨"assistant", "AgentExecutionError: data tool failed"⟩]
      ∧ (runLoop scenarioLLM failingWorker RoundTripCeiling
          [⟨"user", "What is the answer?"⟩]).degraded = false
      ∧ ask_question scenarioLLM failingWorker "What is the answer?"
          = "AgentExecutionError: data tool failed") :=
  ⟨fun llm w fuel log => runLoop_totalize llm w fuel log, by decide, by decide, by decide⟩

/-- C4 counterexample: the extractor's emptiness guard tests the raw
content, not the trimmed content — a whitespace-only assistant reply whose
trimmed, case-insensitive content is empty is still returned instead of the
no-response fallback. -/
theorem extractor_trim_counterexample :
    extract_response [⟨"assistant", " "⟩] "hi" = " "
    ∧ lowerTrim " " = []
    ∧ " " ≠ no_response_fallback := by
  decide

/-- C4 (amended): the extractor returns the content of the last assistant
message whose raw content is non-empty and whose trimmed, case-insensitive
content differs from the trimmed, case-insensitive question; if no message
qualifies it returns the fixed no-response fallback string. -/
theorem extractor_characterization :
    ∀ (log : List Message) (q : String),
      extract_response log q =
        match log.reverse.find? (qualifies q) with
        | some m => message_content m
        | none => no_response_fallback := by
  intro log q
  exact extract_scan_fst_eq_find q log.reverse

/-- C7: the Response Extractor is deterministic and idempotent — the scan
returns the log it traversed unchanged, re-running it on that log gives the
identical outcome, and the extractor is exactly the first projection of the
scan over the reversed log. -/
theorem extractor_idempotent :
    ∀ (log : List Message) (q : String),
      (extract_scan q log).2 = log
      ∧ extract_scan q (extract_scan q log).2 = extract_scan q log
      ∧ extract_response log q = (extract_scan q log.reverse).1 := by
  intro log q
  refine ⟨extract_scan_snd q log, ?_, rfl⟩
  rw [extract_scan_snd q log]

/-- C8 counterexample: when the formatter fetch throws (rather than
answering non-OK), the chat route still answers 200 with the original
content, but no failure is recorded in the trace — the inner catch only
logs, so the trace ends at the activation entry. -/
theorem chat_formatter_throw_counterexample :
    (chatPOST (some "q") (.reply true "hello" (some ["t1"])) .thrown).2
      = ChatResult.ok200 "hello" ["t1", "Formatter activated..."]
          ["ResilienceAI Agent Network"]
    ∧ "Formatter failed" ∉ ["t1", "Formatter activated..."]
    ∧ "Process completed" ∉ ["t1", "Formatter activated..."] := by
  decide

/-- C8 (amended): whenever the agent call succeeds and the formatter call
fails, the chat route returns HTTP 200 with `content` equal to the original
agent response unchanged; the failure is recorded in the trace ("Formatter
failed", "Process completed") only in the non-OK case — when the formatter
fetch throws, the trace carries just the activation entry and no failure
marker. -/
theorem chat_formatter_failure_returns_original :
    ∀ (m resp : String) (tr : Option (List String)),
      ((chatPOST (some m) (.reply true resp tr) .thrown).2
        = .ok200 resp (tr.getD [] ++ ["Formatter activated..."])
            ["ResilienceAI Agent Network"])
      ∧ (∀ (fresp : String) (ftr : Option (List String)),
          (chatPOST (some m) (.reply true resp tr) (.reply false fresp ftr)).2
            = .ok200 resp
                (tr.getD [] ++ ["Formatter activated...", "Formatter failed", "Process completed"])
                ["ResilienceAI Agent Network"]) := by
  intro m resp tr
  constructor
  · rfl
  · intro fresp ftr
    simp [chatPOST]

/-- C10: whatever the caller sends and whatever the upstream does, the chat
route forwards the user message with the constant `thread_id`
"default-session", and any further outgoing request (the formatter pass)
uses the constant `thread_id` "formatter-session" — all callers share these
fixed sessions. -/
theorem chat_session_constants :
    ∀ (m : String) (agent fmt : FetchOutcome),
      ((chatPOST (some m) agent fmt).1.head? = some ⟨m, "default-session"⟩)
      ∧ (∀ r ∈ (chatPOST (some m) agent fmt).1,
          r.thread_id = "default-session" ∨ r.thread_id = "formatter-session")
      ∧ (∀ r ∈ (chatPOST (some m) agent fmt).1.tail,
          r.thread_id = "formatter-session") := by
  intro m agent fmt
  have htwo : ∀ (r r2 : OutRequest),
      (∀ s ∈ [r, r2], s.thread_id = r.thread_id ∨ s.thread_id = r2.thread_id)
      ∧ (∀ s ∈ [r, r2].tail, s.thread_id = r2.thread_id) := by
    intro r r2
    constructor
    · intro s hs
      rcases List.mem_cons.mp hs with rfl | hs
      · exact Or.inl rfl
      · rcases List.mem_cons.mp hs with rfl | hs
        · exact Or.inr rfl
        · cases hs
    · intro s hs
      rcases List.mem_cons.mp hs with rfl | hs
      · rfl
      · cases hs
  rcases agent with _ | ⟨ok, resp, tr⟩
  · refine ⟨rfl, ?_, ?_⟩
    · intro r hr
      simp [chatPOST] at hr
      simp [hr]
    · intro r hr
      simp [chatPOST] at hr
  · rcases ok with _ | _
    · refine ⟨rfl, ?_, ?_⟩
      · intro r hr
        simp [chatPOST] at hr
        simp [hr]
      · intro r hr
        simp [chatPOST] at hr
    · rcases fmt with _ | ⟨fok, fresp, ftr⟩
      · exact ⟨rfl, (htwo ⟨m, "default-session"⟩ ⟨chatFormatPrompt resp, "formatter-session"⟩).1,
          (htwo ⟨m, "default-session"⟩ ⟨chatFormatPrompt resp, "formatter-session"⟩).2⟩
      · rcases fok with _ | _
        · exact ⟨rfl, (htwo ⟨m, "default-session"⟩ ⟨chatFormatPrompt resp, "formatter-session"⟩).1,
            (htwo ⟨m, "default-session"⟩ ⟨chatFormatPrompt resp, "formatter-session"⟩).2⟩
        · exact ⟨rfl, (htwo ⟨m, "default-session"⟩ ⟨chatFormatPrompt resp, "formatter-session"⟩).1,
            (htwo ⟨m, "default-session"⟩ ⟨chatFormatPrompt resp, "formatter-session"⟩).2⟩

/-- C10 witness: a concrete invocation forwards the user message under
"default-session" and its formatter pass under "formatter-session". -/
theorem chat_session_constants_witness :
    (chatPOST (some "hi") (.reply true "r" none) .thrown).1.head?
      = some ⟨"hi", "default-session"⟩
    ∧ (⟨chatFormatPrompt "r", "formatter-session"⟩ : OutRequest).thread_id
        = "formatter-session" :=
  ⟨(chat_session_constants "hi" (.reply true "r" none) .thrown).1,
   (chat_session_constants "hi" (.reply true "r" none) .thrown).2.2
     ⟨chatFormatPrompt "r", "formatter-session"⟩ (by simp [chatPOST])⟩

/-- C9: the analyze-country route never returns an error status — every
branch answers 200 with a `descriptions` value; `descriptions` is the empty
object whenever the body is bad JSON, the countries field is missing, not an
array or empty, whenever the upstream call throws or answers non-OK, and
whenever neither the cleaned reply nor its brace-delimited substring parses
as JSON; and the route's behaviour (in particular the forwarded prompt)
depends only on the first 10 countries of the input. -/
theorem analyze_never_errors :
    (∀ (D : Type) (jp : String → Option D) (body : CountriesField) (agent : FetchOutcome),
        (analyzePOST jp body agent).status = 200)
    ∧ (∀ (D : Type) (jp : String → Option D) (agent : FetchOutcome),
        (analyzePOST jp .badJson agent).descriptions = none
        ∧ (analyzePOST jp .missing agent).descriptions = none
        ∧ (analyzePOST jp .notArray agent).descriptions = none
        ∧ (analyzePOST jp (.arr []) agent).descriptions = none)
    ∧ (∀ (D : Type) (jp : String → Option D) (cs : List CountryRisk),
        (analyzePOST jp (.arr cs) .thrown).descriptions = none
        ∧ ∀ (resp : String) (tr : Option (List String)),
            (analyzePOST jp (.arr cs) (.reply false resp tr)).descriptions = none)
    ∧ (∀ (D : Type) (jp : String → Option D) (cs : List CountryRisk)
          (resp : String) (tr : Option (List String)),
        jp (cleanContent resp) = none →
        (∀ sub, extractBraces (cleanContent resp) = some sub → jp sub = none) →
        (analyzePOST jp (.arr cs) (.reply true resp tr)).descriptions = none)
    ∧ (∀ (D : Type) (jp : String → Option D) (cs : List CountryRisk) (agent : FetchOutcome),
        analyzePOST jp (.arr cs) agent = analyzePOST jp (.arr (cs.take 10)) agent
        ∧ (cs.take 10).length ≤ 10) := by
  refine ⟨?_, ?_, ?_, ?_, ?_⟩
  · intro D jp body agent
    rcases body with _ | _ | _ | cs
    · rfl
    · rfl
    · rfl
    · by_cases h : cs.isEmpty
      · simp [analyzePOST, h]
      · rcases agent with _ | ⟨ok, resp, tr⟩
        · simp [analyzePOST, h]
        · rcases ok with _ | _
          · simp [analyzePOST, h]
          · rcases hjp : jp (cleanContent resp) with _ | d
            · rcases hx : extractBraces (cleanContent resp) with _ | sub
              · simp [analyzePOST, h, hjp, hx]
              · rcases hsub : jp sub with _ | d <;> simp [analyzePOST, h, hjp, hx, hsub]
            · simp [analyzePOST, h, hjp]
  · intro D jp agent
    exact ⟨rfl, rfl, rfl, rfl⟩
  · intro D jp cs
    by_cases h : cs.isEmpty <;>
      exact ⟨by simp [analyzePOST, h], fun resp tr => by simp [analyzePOST, h]⟩
  · intro D jp cs resp tr h1 h2
    by_cases h : cs.isEmpty
    · simp [analyzePOST, h]
    · rcases hx : extractBraces (cleanContent resp) with _ | sub
      · simp [analyzePOST, h, h1, hx]
      · simp [analyzePOST, h, h1, hx, h2 sub hx]
  · intro D jp cs agent
    have htake : cs.take 10 = (cs.take 10).take 10 := by
      simp [List.take_take]
    have hempty : cs.isEmpty = (cs.take 10).isEmpty := by
      rcases cs with _ | ⟨c, cs'⟩ <;> rfl
    have hprompt : analyzePrompt cs = analyzePrompt (cs.take 10) := by
      unfold analyzePrompt targetCountries
      rw [← htake]
    refine ⟨?_, ?_⟩
    · simp only [analyzePOST, ← hempty, hprompt]
    · simp [List.length_take_le 10 cs]

/-- C9 witness: with a parse oracle that always fails, a one-country request
whose upstream reply is not JSON still yields the empty descriptions
object. -/
theorem analyze_never_errors_witness :
    (analyzePOST (D := Nat) (fun _ => none)
        (.arr [⟨"India", "IND", "80"⟩]) (.reply true "not json" none)).descriptions = none :=
  analyze_never_errors.2.2.2.1 Nat (fun _ => none) [⟨"India", "IND", "80"⟩]
    "not json" none rfl (fun _ _ => rfl)
